import Mathlib

/-!
Verification of `src/comments.py` (designsimply/youtube_comments).

The file shallowly embeds the four core functions of the program —
`parse_comments`, `comment_threads`, `get_sentiments` and `to_csv` — as pure
Lean functions, together with a model of the parts of the environment they
observably depend on:

* the paged comment-listing API is modelled as the list of pages it serves
  (each page a list of thread items, the continuation cursor present exactly
  on the non-final pages);
* the thread-pool used by `get_sentiments` is modelled by an explicit task
  completion order: each submitted task writes its result into the slot of
  its submission index, and the completion order is an arbitrary permutation
  of the submission indices;
* the Python `csv.DictWriter` (excel dialect, `delimiter="\t"`,
  `QUOTE_MINIMAL`) is modelled field by field: a field is quoted iff it
  contains the delimiter, the quote character or a CR/LF character, inner
  quotes are doubled, rows end in CRLF, `None` renders as the empty string;
* Python `float` values are carried opaquely (by their decimal rendering),
  since no property below depends on floating-point arithmetic.
-/

namespace YoutubeComments

/-- The snippet of one comment as served by the comment-listing API
(the fields `Comment.from_dict` reads, minus `parentId`/`commentId`,
which the two branches of `parse_comments` supply differently).
`authorChannelId` is already the inner `"value"` of the `authorChannelId`
object of the API. -/
structure CommentSnippet where
  channelId : String
  videoId : String
  textDisplay : String
  authorDisplayName : String
  authorProfileImageUrl : String
  authorChannelUrl : String
  authorChannelId : String
  canRate : Bool
  viewerRating : String
  likeCount : Int
  publishedAt : String
  updatedAt : String
deriving DecidableEq, Repr

/-- One reply inside the `replies.comments` list of a thread: its own `id`,
its snippet, and the `parentId` field embedded in that snippet by the API. -/
structure Reply where
  id : String
  snippet : CommentSnippet
  parentId : String
deriving DecidableEq, Repr

/-- The `snippet.topLevelComment` of a thread: the `id` and snippet of the
top-level comment. -/
structure TopLevelComment where
  id : String
  snippet : CommentSnippet
deriving DecidableEq, Repr

/-- One item of a `commentThreads().list` response (`part="id,replies,snippet"`):
the own `id` of the thread, its `snippet.topLevelComment`, and — exactly when the
`"replies"` key is present — the list `replies.comments`. -/
structure ThreadItem where
  id : String
  topLevelComment : TopLevelComment
  replies : Option (List Reply)
deriving DecidableEq, Repr

/-- The `Comment` dataclass: fields in declaration order. `parentId` is
`Option String` because the code stores Python `None` there for top-level
comments. -/
structure Comment where
  channelId : String
  videoId : String
  textDisplay : String
  authorDisplayName : String
  authorProfileImageUrl : String
  authorChannelUrl : String
  authorChannelId : String
  canRate : Bool
  viewerRating : String
  likeCount : Int
  publishedAt : String
  updatedAt : String
  parentId : Option String
  commentId : String
deriving DecidableEq, Repr

/-- The replies branch of `parse_comments`: `comment = reply["snippet"];
comment["commentId"] = reply["id"]; Comment.from_dict(comment)`. The
own `parentId` of the snippet is kept; `commentId` is the `id` of the reply. -/
def replyToComment (r : Reply) : Comment :=
  { channelId := r.snippet.channelId
    videoId := r.snippet.videoId
    textDisplay := r.snippet.textDisplay
    authorDisplayName := r.snippet.authorDisplayName
    authorProfileImageUrl := r.snippet.authorProfileImageUrl
    authorChannelUrl := r.snippet.authorChannelUrl
    authorChannelId := r.snippet.authorChannelId
    canRate := r.snippet.canRate
    viewerRating := r.snippet.viewerRating
    likeCount := r.snippet.likeCount
    publishedAt := r.snippet.publishedAt
    updatedAt := r.snippet.updatedAt
    parentId := some r.parentId
    commentId := r.id }

/-- The no-replies branch of `parse_comments`: the
`snippet.topLevelComment.snippet` of the thread with `parentId = None` and
`commentId = res["snippet"]["topLevelComment"]["id"]`. -/
def topLevelToComment (res : ThreadItem) : Comment :=
  { channelId := res.topLevelComment.snippet.channelId
    videoId := res.topLevelComment.snippet.videoId
    textDisplay := res.topLevelComment.snippet.textDisplay
    authorDisplayName := res.topLevelComment.snippet.authorDisplayName
    authorProfileImageUrl := res.topLevelComment.snippet.authorProfileImageUrl
    authorChannelUrl := res.topLevelComment.snippet.authorChannelUrl
    authorChannelId := res.topLevelComment.snippet.authorChannelId
    canRate := res.topLevelComment.snippet.canRate
    viewerRating := res.topLevelComment.snippet.viewerRating
    likeCount := res.topLevelComment.snippet.likeCount
    publishedAt := res.topLevelComment.snippet.publishedAt
    updatedAt := res.topLevelComment.snippet.updatedAt
    parentId := none
    commentId := res.topLevelComment.id }

/-- The function `parse_comments(response)`: for each item of `response["items"]`, if the
`"replies"` key is present emit one `Comment` per reply (the top-level
comment of that thread is not emitted), otherwise emit the single top-level
comment. -/
def parse_comments (items : List ThreadItem) : List Comment :=
  (items.map (fun res =>
    match res.replies with
    | some replies => replies.map replyToComment
    | none => [topLevelToComment res])).flatten

/-- One response of the paged API as `comment_threads` observes it: its
items and whether `"nextPageToken"` is present. -/
structure PageResponse where
  items : List ThreadItem
  hasNext : Bool
deriving DecidableEq, Repr

/-- The `while True` loop of `comment_threads`: extend the accumulator with
the parsed page; break once `limit > 0 and len(comments) >= limit`;
otherwise continue exactly when the response carries a `nextPageToken`. -/
def fetchLoop : List PageResponse → Int → List Comment → List Comment
  | [], _, comments => comments
  | r :: rest, limit, comments =>
      let comments := comments ++ parse_comments r.items
      if 0 < limit ∧ limit ≤ (comments.length : Int) then comments
      else if r.hasNext then fetchLoop rest limit comments
      else comments

/-- The paged API serving the given pages in order: every page except the
last carries a `nextPageToken` leading to the next one. -/
def mkResponses : List (List ThreadItem) → List PageResponse
  | [] => []
  | [p] => [⟨p, false⟩]
  | p :: q :: rest => ⟨p, true⟩ :: mkResponses (q :: rest)

/-- The function `comment_threads(youtube, videoID, limit)`, with the API abstracted to
the pages it serves for `videoID`: run the pagination loop, then
`comments[:limit] if limit > 0 else comments`. -/
def comment_threads (pages : List (List ThreadItem)) (limit : Int) : List Comment :=
  let comments := fetchLoop (mkResponses pages) limit []
  if 0 < limit then comments.take limit.toNat else comments

/-- A Python `float`, carried opaquely by its decimal rendering: no property
proved below depends on floating-point arithmetic, only on values being
passed through and printed deterministically. -/
structure PyFloat where
  val : String
deriving DecidableEq, Repr

/-- The `Sentiment` dataclass: `score` and `magnitude`. -/
structure Sentiment where
  score : PyFloat
  magnitude : PyFloat
deriving DecidableEq, Repr

/-- One execution of the worker pool of `get_sentiments`
(`ThreadPoolExecutor(max_workers=5).map`): tasks are submitted in input
order, one per list element; each task computes `f` on its element and
writes the result into the slot of its submission index; `order` is the
order in which the scheduler completes the tasks (indices out of range do
nothing). -/
def poolRun {α β : Type} (f : α → β) (xs : List α) (order : List Nat) :
    List (Option β) :=
  order.foldl
    (fun slots i =>
      match xs[i]? with
      | some x => slots.set i (some (f x))
      | none => slots)
    (List.replicate xs.length none)

/-- Collect the slot array once all tasks have completed; `none` if some
slot was never written. -/
def collectSlots {β : Type} : List (Option β) → Option (List β)
  | [] => some []
  | none :: _ => none
  | some b :: rest => (collectSlots rest).map (fun l => b :: l)

/-- The function `get_sentiments(client, comments)`: submit
`lambda c: get_sentiment(client, c.textDisplay)` for every comment to the
pool and return the results in submission order. The sentiment-analysis
capability (`get_sentiment` applied to the client) is abstracted as
`analyze`; `order` is the completion order chosen by the scheduler. -/
def get_sentiments (analyze : String → Sentiment) (comments : List Comment)
    (order : List Nat) : Option (List Sentiment) :=
  collectSlots (poolRun (fun c => analyze c.textDisplay) comments order)

/-- The Python `c in s` membership test on a string, modelled on the
character sequence. -/
def strContains (s : String) (c : Char) : Bool :=
  s.data.contains c

/-- The Python call `s.replace("\t", " ")` (line 211 of the source): the pattern
and the replacement are single characters, so the call substitutes one
space for every tab character. -/
def replaceTab (s : String) : String :=
  String.mk (s.data.map (fun ch => if ch = '\t' then ' ' else ch))

/-- Python's `s.replace('"', '""')` as the csv writer's `doublequote`
escaping performs it: every quote character is doubled. -/
def doubleQuotes (s : String) : String :=
  String.mk (s.data.flatMap (fun ch => if ch = '"' then ['"', '"'] else [ch]))

/-- One value of a row dict of `to_csv`, as `csv.DictWriter` renders it:
strings verbatim, `True`/`False` for bools, decimal for ints, the stored
float rendering, and the empty string for `None`. -/
inductive Cell where
  | str (s : String)
  | boolV (b : Bool)
  | intV (n : Int)
  | floatV (x : PyFloat)
  | noneV
deriving DecidableEq, Repr

/-- How `csv.DictWriter` writes one dict value as text. -/
def Cell.render : Cell → String
  | .str s => s
  | .boolV b => if b then "True" else "False"
  | .intV n => toString n
  | .floatV x => x.val
  | .noneV => ""

/-- A Python dict with string keys in insertion order. -/
abbrev Row := List (String × Cell)

/-- Python dict assignment `d[k] = v`: overwrite in place when the key
exists (insertion order unchanged), append otherwise. -/
def dictSet (d : Row) (k : String) (v : Cell) : Row :=
  if d.any (fun p => p.1 = k) then
    d.map (fun p => if p.1 = k then (k, v) else p)
  else d ++ [(k, v)]

/-- Python dict lookup with `None` default (the `restval` of `DictWriter`). -/
def dictGet (d : Row) (k : String) : Cell :=
  match d.find? (fun p => p.1 = k) with
  | some p => p.2
  | none => Cell.noneV

/-- The method `Comment.to_dict` = `self.__dict__.copy()`: the fields in dataclass
declaration order. -/
def Comment.to_dict (c : Comment) : Row :=
  [("channelId", Cell.str c.channelId),
   ("videoId", Cell.str c.videoId),
   ("textDisplay", Cell.str c.textDisplay),
   ("authorDisplayName", Cell.str c.authorDisplayName),
   ("authorProfileImageUrl", Cell.str c.authorProfileImageUrl),
   ("authorChannelUrl", Cell.str c.authorChannelUrl),
   ("authorChannelId", Cell.str c.authorChannelId),
   ("canRate", Cell.boolV c.canRate),
   ("viewerRating", Cell.str c.viewerRating),
   ("likeCount", Cell.intV c.likeCount),
   ("publishedAt", Cell.str c.publishedAt),
   ("updatedAt", Cell.str c.updatedAt),
   ("parentId", match c.parentId with
                | some p => Cell.str p
                | none => Cell.noneV),
   ("commentId", Cell.str c.commentId)]

/-- The errors `to_csv` can raise: `IndexError` from `sentiments[i]` and
`ValueError("No comments to write to file.")`. Either is raised before
`open(filepath, "w")`, so on error no file is created. -/
inductive CsvError where
  | indexError
  | valueError
deriving DecidableEq, Repr

/-- Truthiness of the `sentiments` argument in `if sentiments:`:
`None` and the empty list are falsy. -/
def sentimentsTruthy : Option (List Sentiment) → Bool
  | none => false
  | some s => !s.isEmpty

/-- One iteration of the row loop of `to_csv`: `row = comment.to_dict()`;
`row["textDisplay"] = comment.textDisplay.replace("\t", " ")`; when
`sentiments` is truthy also `row["score"] = sentiments[i].score` and
`row["magnitude"] = sentiments[i].magnitude` (an out-of-range `i` raises
`IndexError`). -/
def buildRow (sentiments : Option (List Sentiment)) (i : Nat) (c : Comment) :
    Except CsvError Row :=
  let row := dictSet c.to_dict "textDisplay"
    (Cell.str (replaceTab c.textDisplay))
  if sentimentsTruthy sentiments then
    match (sentiments.getD [])[i]? with
    | some sv =>
        Except.ok (dictSet (dictSet row "score" (Cell.floatV sv.score))
          "magnitude" (Cell.floatV sv.magnitude))
    | none => Except.error CsvError.indexError
  else Except.ok row

/-- The whole `for i, comment in enumerate(comments)` loop of `to_csv`. -/
def buildRows (sentiments : Option (List Sentiment)) :
    Nat → List Comment → Except CsvError (List Row)
  | _, [] => Except.ok []
  | i, c :: rest => do
      let r ← buildRow sentiments i c
      let rs ← buildRows sentiments (i + 1) rest
      Except.ok (r :: rs)

/-- One field as the Python `csv` writer emits it (excel dialect,
`QUOTE_MINIMAL`, `delimiter="\t"`): quoted, with inner quotes doubled,
exactly when it contains the delimiter, the quote character or a
line-terminator character. -/
def pyCsvField (s : String) : String :=
  if strContains s '\t' || strContains s '"' ||
      strContains s '\r' || strContains s '\n'
  then "\"" ++ doubleQuotes s ++ "\""
  else s

/-- One row as the Python `csv` writer emits it: fields joined by the tab
delimiter, terminated by CRLF; a row of exactly one empty field is written
as `""` to keep it distinct from an empty line. -/
def pyCsvRow (cells : List String) : String :=
  (match cells with
   | [c] => if c = "" then "\"\"" else pyCsvField c
   | _ => String.intercalate "\t" (cells.map pyCsvField)) ++ "\r\n"

/-- The helper `DictWriter._dict_to_list`: the row values in `fieldnames` order,
rendered as text. -/
def dict_to_list (fieldnames : List String) (d : Row) : List String :=
  fieldnames.map (fun k => (dictGet d k).render)

/-- The calls `writer.writeheader()` and `writer.writerows(rows)`: the header
row of field names, then one encoded row per dict. -/
def csvEncode (fieldnames : List String) (rows : List Row) : String :=
  pyCsvRow fieldnames ++
    String.join (rows.map (fun r => pyCsvRow (dict_to_list fieldnames r)))

/-- The function `to_csv(filepath, comments, sentiments)`, with the written file content
as the result: build the rows, raise `ValueError` when there are none, take
the field names from the first row, then write header and rows. An
`Except.error` models an exception raised before the file is opened. -/
def to_csv (comments : List Comment) (sentiments : Option (List Sentiment)) :
    Except CsvError String := do
  let rows ← buildRows sentiments 0 comments
  match rows with
  | [] => Except.error CsvError.valueError
  | first :: _ =>
      Except.ok (csvEncode (first.map Prod.fst) rows)

/-- All comments the API serves, page order and within-page order
preserved: the parse of every page, concatenated. -/
def allParsed (pages : List (List ThreadItem)) : List Comment :=
  (pages.map parse_comments).flatten

/-- The row `to_csv` builds for a comment before any sentiment columns:
`comment.to_dict()` with `textDisplay` overwritten by its tab-replaced
form. -/
def plainRow (c : Comment) : Row :=
  dictSet c.to_dict "textDisplay" (Cell.str (replaceTab c.textDisplay))

/-- The row `to_csv` builds for a comment when sentiments are truthy:
`plainRow` with `score` and `magnitude` appended. -/
def sentRow (c : Comment) (sv : Sentiment) : Row :=
  dictSet (dictSet (plainRow c) "score" (Cell.floatV sv.score))
    "magnitude" (Cell.floatV sv.magnitude)

/-- The `Comment` field names in dataclass declaration order. -/
def commentFields : List String :=
  ["channelId", "videoId", "textDisplay", "authorDisplayName",
   "authorProfileImageUrl", "authorChannelUrl", "authorChannelId",
   "canRate", "viewerRating", "likeCount", "publishedAt", "updatedAt",
   "parentId", "commentId"]

/-- The header when sentiments are written: the comment fields followed by
`score` and `magnitude`. -/
def sentimentFields : List String :=
  commentFields ++ ["score", "magnitude"]

/-- Modelled from the spec, for comparison with the code in claim C5: a row
as the claimed policy would write it — fields joined by the tab delimiter
with no quoting and no other escaping, terminated like the real rows. -/
def noQuoteRow (cells : List String) : String :=
  String.intercalate "\t" cells ++ "\r\n"

/-- Modelled from the spec, for comparison with the code in claim C5: the
file content the claimed no-escaping policy would produce — header and
rows written by `noQuoteRow`, the only transformation being the
tab-to-space replacement already applied inside the rows. -/
def noQuoteEncode (fieldnames : List String) (rows : List Row) : String :=
  noQuoteRow fieldnames ++
    String.join (rows.map (fun r => noQuoteRow (dict_to_list fieldnames r)))

/-! Concrete sample data for witnesses and counterexamples. -/

/-- A sample snippet with the given comment text. -/
def sampleSnippet (t : String) : CommentSnippet :=
  { channelId := "UC_chan", videoId := "vid0", textDisplay := t,
    authorDisplayName := "Ada", authorProfileImageUrl := "http://img",
    authorChannelUrl := "http://chan", authorChannelId := "UC_auth",
    canRate := true, viewerRating := "none", likeCount := 3,
    publishedAt := "2024-01-01T00:00:00Z",
    updatedAt := "2024-01-02T00:00:00Z" }

/-- A sample comment record with the given text and id. -/
def sampleComment (t id : String) : Comment :=
  { channelId := "UC_chan", videoId := "vid0", textDisplay := t,
    authorDisplayName := "Ada", authorProfileImageUrl := "http://img",
    authorChannelUrl := "http://chan", authorChannelId := "UC_auth",
    canRate := true, viewerRating := "none", likeCount := 3,
    publishedAt := "2024-01-01T00:00:00Z",
    updatedAt := "2024-01-02T00:00:00Z",
    parentId := none, commentId := id }

/-- A sample thread item without replies, with the given thread id,
top-level comment id and text. -/
def sampleTopItem (tid cid t : String) : ThreadItem :=
  { id := tid, topLevelComment := { id := cid, snippet := sampleSnippet t },
    replies := none }

/-- Two sample replies whose snippets reference `top0` as parent. -/
def sampleReplies : List Reply :=
  [{ id := "r1", snippet := sampleSnippet "first reply", parentId := "top0" },
   { id := "r2", snippet := sampleSnippet "second reply", parentId := "top0" }]

/-- A sample thread item whose top-level comment `top0` carries the two
sample replies. -/
def sampleReplyItem : ThreadItem :=
  { id := "top0",
    topLevelComment := { id := "top0", snippet := sampleSnippet "top text" },
    replies := some sampleReplies }

/-- Eight reply-free thread items: page one of spec scenario A. -/
def scenarioFirstPage : List ThreadItem :=
  (List.range 8).map (fun i => sampleTopItem (toString i) (toString i) "x")

/-- Two reply-free thread items: page two of spec scenario A. -/
def scenarioSecondPage : List ThreadItem :=
  (List.range 2).map (fun i => sampleTopItem (toString (8 + i)) (toString (8 + i)) "y")

/-- The paged source of spec scenario A: ten comments across two pages of
eight and two. -/
def scenarioPages : List (List ThreadItem) :=
  [scenarioFirstPage, scenarioSecondPage]

/-- A comment whose text contains both the delimiter and a quote
character: the tab is replaced by a space, but the surviving quote makes
the csv writer quote the field. -/
def c5Ex : Comment :=
  sampleComment "a\tb\"c" "c5"

/-- Three sample comments whose texts encode their position. -/
def enrichComments : List Comment :=
  [sampleComment "alpha" "a", sampleComment "beta" "b",
   sampleComment "gamma" "g"]

/-- A stub analyzer that echoes the analyzed text into the score. -/
def echoAnalyze : String → Sentiment :=
  fun t => { score := { val := t }, magnitude := { val := "0" } }

/-- The cells of the data row `to_csv` writes for one comment (no
sentiments): the rendered values of `plainRow` in header order. -/
def rowCells (c : Comment) : List String :=
  dict_to_list commentFields (plainRow c)

/-- The row cells other than the one sourced from `textDisplay` contain no
tab character (the code only sanitizes `textDisplay`, so delimiter safety
of a row additionally needs the remaining fields to be delimiter-free). -/
def otherFieldsTabFree (c : Comment) : Prop :=
  strContains c.channelId '\t' = false
  ∧ strContains c.videoId '\t' = false
  ∧ strContains c.authorDisplayName '\t' = false
  ∧ strContains c.authorProfileImageUrl '\t' = false
  ∧ strContains c.authorChannelUrl '\t' = false
  ∧ strContains c.authorChannelId '\t' = false
  ∧ strContains c.viewerRating '\t' = false
  ∧ strContains (toString c.likeCount) '\t' = false
  ∧ strContains c.publishedAt '\t' = false
  ∧ strContains c.updatedAt '\t' = false
  ∧ strContains (c.parentId.getD "") '\t' = false
  ∧ strContains c.commentId '\t' = false

instance (c : Comment) : Decidable (otherFieldsTabFree c) := by
  unfold otherFieldsTabFree
  infer_instance

deriving instance DecidableEq for Except

/-! ## Theorems -/

/-! ### Pagination lemmas -/

theorem fetchLoop_nil (limit : Int) (acc : List Comment) :
    fetchLoop [] limit acc = acc := rfl

theorem fetchLoop_cons (r : PageResponse) (rest : List PageResponse)
    (limit : Int) (acc : List Comment) :
    fetchLoop (r :: rest) limit acc =
      if 0 < limit ∧ limit ≤ ((acc ++ parse_comments r.items).length : Int)
      then acc ++ parse_comments r.items
      else if r.hasNext
      then fetchLoop rest limit (acc ++ parse_comments r.items)
      else acc ++ parse_comments r.items := rfl

theorem allParsed_nil : allParsed [] = [] := rfl

theorem allParsed_cons (p : List ThreadItem) (rest : List (List ThreadItem)) :
    allParsed (p :: rest) = parse_comments p ++ allParsed rest := by
  simp [allParsed]

/-- With no positive limit, the loop walks the cursor chain to the last
page and accumulates every parsed page. -/
theorem fetchLoop_unlimited (limit : Int) (hl : limit ≤ 0) :
    ∀ (pages : List (List ThreadItem)) (acc : List Comment),
      fetchLoop (mkResponses pages) limit acc = acc ++ allParsed pages := by
  intro pages
  induction pages with
  | nil => intro acc; simp [mkResponses, fetchLoop_nil, allParsed]
  | cons p rest ih =>
    intro acc
    cases rest with
    | nil =>
        rw [show mkResponses [p] = [⟨p, false⟩] from rfl, fetchLoop_cons,
          if_neg (by omega)]
        simp [allParsed]
    | cons q rest2 =>
        rw [show mkResponses (p :: q :: rest2)
              = ⟨p, true⟩ :: mkResponses (q :: rest2) from rfl,
          fetchLoop_cons, if_neg (by omega)]
        simpa [allParsed_cons] using ih (acc ++ parse_comments p)

/-- With a positive limit, truncating the loop result to `limit` items is
the same as truncating the full concatenation of parsed pages: the loop
only ever stops early once the accumulator already holds at least `limit`
comments. -/
theorem fetchLoop_limited (limit : Int) (hl : 0 < limit) :
    ∀ (pages : List (List ThreadItem)) (acc : List Comment),
      (fetchLoop (mkResponses pages) limit acc).take limit.toNat
        = (acc ++ allParsed pages).take limit.toNat := by
  intro pages
  induction pages with
  | nil => intro acc; simp [mkResponses, fetchLoop_nil, allParsed]
  | cons p rest ih =>
    intro acc
    cases rest with
    | nil =>
        rw [show mkResponses [p] = [⟨p, false⟩] from rfl, fetchLoop_cons]
        dsimp only
        rw [if_neg Bool.false_ne_true, ite_self]
        simp [allParsed]
    | cons q rest2 =>
        rw [show mkResponses (p :: q :: rest2)
              = ⟨p, true⟩ :: mkResponses (q :: rest2) from rfl,
          fetchLoop_cons]
        dsimp only
        rw [if_pos rfl]
        split_ifs with h1
        · have hle : limit.toNat ≤ (acc ++ parse_comments p).length := by
            rcases h1 with ⟨-, h2⟩
            omega
          rw [allParsed_cons, ← List.append_assoc,
            List.take_append_of_le_length hle]
        · rw [ih (acc ++ parse_comments p)]
          simp [allParsed_cons, List.append_assoc]

/-- Claim C2: with `limit > 0` the fetch returns exactly the first `limit`
comments of the full page stream (pagination stops as soon as the
accumulated count reaches the limit and the result is truncated to it);
with `limit <= 0` the fetch is unlimited and returns every comment of
every page. -/
theorem claim_C2_limit_truncation (pages : List (List ThreadItem))
    (limit : Int) :
    (0 < limit →
      comment_threads pages limit = (allParsed pages).take limit.toNat)
    ∧ (limit ≤ 0 → comment_threads pages limit = allParsed pages) := by
  constructor
  · intro hl
    unfold comment_threads
    rw [if_pos hl]
    simpa using fetchLoop_limited limit hl pages []
  · intro hl
    unfold comment_threads
    rw [if_neg (by omega)]
    simpa using fetchLoop_unlimited limit hl pages []

/-- Witness for claim C2: spec scenario A — limit 3 against pages of 8 and
2 yields exactly 3 records, all from page 1. -/
theorem claim_C2_limit_truncation_witness :
    (0 < (3 : Int))
    ∧ comment_threads scenarioPages 3 = (allParsed scenarioPages).take (3 : Int).toNat
    ∧ (comment_threads scenarioPages 3).length = 3
    ∧ comment_threads scenarioPages 3 = (parse_comments scenarioFirstPage).take 3 :=
  ⟨by decide, (claim_C2_limit_truncation scenarioPages 3).1 (by decide),
    by decide, by decide⟩

/-- Claim C1: for every page response, when a thread item carries a
`replies` collection, the fetch output contains one `Comment` per reply —
the output comment ids are exactly the reply ids in order, each output
`parentId` is the reply its own embedded parent reference, which under the
API invariant that every reply of a thread references the top-level
comment of that thread equals the top-level identifier — and the top-level
comment itself is never emitted (every emitted record carries a parent). -/
theorem claim_C1_replies_flattened (item : ThreadItem) (rs : List Reply)
    (h : item.replies = some rs) :
    (parse_comments [item]).map Comment.commentId = rs.map Reply.id
    ∧ (parse_comments [item]).map Comment.parentId
        = rs.map (fun r => some r.parentId)
    ∧ ((∀ r ∈ rs, r.parentId = item.topLevelComment.id) →
        ∀ c ∈ parse_comments [item],
          c.parentId = some item.topLevelComment.id)
    ∧ (∀ c ∈ parse_comments [item], c.parentId ≠ none) := by
  have hp : parse_comments [item] = rs.map replyToComment := by
    simp [parse_comments, h]
  refine ⟨?_, ?_, ?_, ?_⟩
  · rw [hp, List.map_map]
    rfl
  · rw [hp, List.map_map]
    rfl
  · intro hpar c hc
    rw [hp] at hc
    obtain ⟨r, hr, rfl⟩ := List.mem_map.1 hc
    simpa [replyToComment] using hpar r hr
  · intro c hc
    rw [hp] at hc
    obtain ⟨r, hr, rfl⟩ := List.mem_map.1 hc
    simp [replyToComment]

/-- Witness for claim C1 at the sample thread item with two replies. -/
theorem claim_C1_replies_flattened_witness :
    sampleReplyItem.replies = some sampleReplies
    ∧ ((parse_comments [sampleReplyItem]).map Comment.commentId
          = sampleReplies.map Reply.id
        ∧ (parse_comments [sampleReplyItem]).map Comment.parentId
            = sampleReplies.map (fun r => some r.parentId)
        ∧ ((∀ r ∈ sampleReplies,
              r.parentId = sampleReplyItem.topLevelComment.id) →
            ∀ c ∈ parse_comments [sampleReplyItem],
              c.parentId = some sampleReplyItem.topLevelComment.id)
        ∧ (∀ c ∈ parse_comments [sampleReplyItem], c.parentId ≠ none)) :=
  ⟨rfl, claim_C1_replies_flattened sampleReplyItem sampleReplies rfl⟩

/-! ### Worker-pool lemmas -/

theorem foldl_slots_length {α β : Type} (f : α → β) (xs : List α) :
    ∀ (order : List Nat) (s : List (Option β)),
      (order.foldl (fun slots i =>
        match xs[i]? with
        | some x => slots.set i (some (f x))
        | none => slots) s).length = s.length := by
  intro order
  induction order with
  | nil => intro s; rfl
  | cons i rest ih =>
      intro s
      rw [List.foldl_cons, ih]
      cases h : xs[i]? <;> simp [h]

theorem foldl_slots_get_notMem {α β : Type} (f : α → β) (xs : List α) :
    ∀ (order : List Nat) (s : List (Option β)) (j : Nat), j ∉ order →
      (order.foldl (fun slots i =>
        match xs[i]? with
        | some x => slots.set i (some (f x))
        | none => slots) s)[j]? = s[j]? := by
  intro order
  induction order with
  | nil => intro s j _; rfl
  | cons i rest ih =>
      intro s j hj
      have hji : j ≠ i := fun h => hj (h ▸ List.mem_cons_self i rest)
      have hrest : j ∉ rest := fun h => hj (List.mem_cons_of_mem i h)
      rw [List.foldl_cons, ih _ j hrest]
      cases h : xs[i]? with
      | none => rfl
      | some x => simp [h, List.getElem?_set_ne (Ne.symm hji)]

theorem foldl_slots_get_mem {α β : Type} (f : α → β) (xs : List α) :
    ∀ (order : List Nat) (s : List (Option β)) (j : Nat) (x : α),
      xs[j]? = some x → j < s.length → j ∈ order →
      (order.foldl (fun slots i =>
        match xs[i]? with
        | some x => slots.set i (some (f x))
        | none => slots) s)[j]? = some (some (f x)) := by
  intro order
  induction order with
  | nil => intro s j x _ _ hmem; exact absurd hmem (List.not_mem_nil j)
  | cons i rest ih =>
      intro s j x hx hlen hmem
      rw [List.foldl_cons]
      by_cases hj : j ∈ rest
      · refine ih _ j x hx ?_ hj
        cases h : xs[i]? <;> simp [h, hlen]
      · have hji : j = i := by
          rcases List.mem_cons.1 hmem with h | h
          · exact h
          · exact absurd h hj
        subst hji
        simp only [hx]
        rw [foldl_slots_get_notMem f xs rest _ j hj]
        exact List.getElem?_set_self hlen

/-- Whatever order the scheduler completes the tasks in, as long as every
submitted task runs exactly once, the slot array ends up holding the
result of each element at its submission index. -/
theorem poolRun_perm {α β : Type} (f : α → β) (xs : List α)
    (order : List Nat) (h : order.Perm (List.range xs.length)) :
    poolRun f xs order = xs.map (fun x => some (f x)) := by
  apply List.ext_getElem?
  intro j
  by_cases hj : j < xs.length
  · have hmem : j ∈ order := h.mem_iff.2 (List.mem_range.2 hj)
    have hx : xs[j]? = some xs[j] := List.getElem?_eq_getElem hj
    unfold poolRun
    rw [foldl_slots_get_mem f xs order _ j xs[j] hx (by simp [hj]) hmem,
      List.getElem?_map, hx]
    rfl
  · have h1 : (poolRun f xs order).length ≤ j := by
      unfold poolRun
      rw [foldl_slots_length]
      simp
      omega
    rw [List.getElem?_eq_none h1,
      List.getElem?_eq_none (by simp [Nat.le_of_not_lt]; omega)]

theorem collectSlots_map_some {α β : Type} (g : α → β) (xs : List α) :
    collectSlots (xs.map (fun x => some (g x))) = some (xs.map g) := by
  induction xs with
  | nil => rfl
  | cons x rest ih => simp [collectSlots, ih]

/-- Claim C3: for every completion order that runs all submitted analyses,
`get_sentiments` returns exactly the sequential map of the analyzer over
the comment texts in input order — same length, i-th result analyzing the
i-th comment. -/
theorem claim_C3_order_preserved (analyze : String → Sentiment)
    (comments : List Comment) (order : List Nat)
    (h : order.Perm (List.range comments.length)) :
    get_sentiments analyze comments order
      = some (comments.map (fun c => analyze c.textDisplay))
    ∧ ∀ res, get_sentiments analyze comments order = some res →
        res.length = comments.length
        ∧ ∀ (i : Nat), res[i]?
            = Option.map (fun (c : Comment) => analyze c.textDisplay) comments[i]? := by
  have hmain : get_sentiments analyze comments order
      = some (comments.map (fun c => analyze c.textDisplay)) := by
    unfold get_sentiments
    rw [poolRun_perm _ _ _ h, collectSlots_map_some]
  refine ⟨hmain, ?_⟩
  intro res hres
  rw [hmain] at hres
  obtain rfl := Option.some.inj hres
  constructor
  · simp
  · intro i
    simp [List.getElem?_map]

/-- Witness for claim C3: three comments completed in the order 2, 0, 1
still yield the index-aligned sequential map. -/
theorem claim_C3_order_preserved_witness :
    ([2, 0, 1] : List Nat).Perm (List.range enrichComments.length)
    ∧ (get_sentiments echoAnalyze enrichComments [2, 0, 1]
          = some (enrichComments.map (fun c => echoAnalyze c.textDisplay))
        ∧ ∀ res, get_sentiments echoAnalyze enrichComments [2, 0, 1] = some res →
            res.length = enrichComments.length
            ∧ ∀ (i : Nat), res[i]?
                = Option.map (fun (c : Comment) => echoAnalyze c.textDisplay)
                    enrichComments[i]?) :=
  ⟨by decide, claim_C3_order_preserved echoAnalyze enrichComments [2, 0, 1] (by decide)⟩

/-- Claim C4: for every thread item without a `replies` collection,
exactly one `Comment` is emitted — the top-level comment, with `parentId`
null and `commentId` the identifier of the top-level comment (which under
the API invariant that a thread id equals its top-level comment id is the
thread its own identifier, not anything taken from the snippet). -/
theorem claim_C4_toplevel_single (item : ThreadItem)
    (h : item.replies = none) :
    parse_comments [item] = [topLevelToComment item]
    ∧ (topLevelToComment item).parentId = none
    ∧ (topLevelToComment item).commentId = item.topLevelComment.id
    ∧ (item.id = item.topLevelComment.id →
        (topLevelToComment item).commentId = item.id) := by
  exact ⟨by simp [parse_comments, h], rfl, rfl, fun hid => hid.symm ▸ rfl⟩

/-- Witness for claim C4 at a sample reply-free thread item. -/
theorem claim_C4_toplevel_single_witness :
    (sampleTopItem "t0" "t0" "hello").replies = none
    ∧ (parse_comments [sampleTopItem "t0" "t0" "hello"]
          = [topLevelToComment (sampleTopItem "t0" "t0" "hello")]
        ∧ (topLevelToComment (sampleTopItem "t0" "t0" "hello")).parentId = none
        ∧ (topLevelToComment (sampleTopItem "t0" "t0" "hello")).commentId
            = (sampleTopItem "t0" "t0" "hello").topLevelComment.id
        ∧ ((sampleTopItem "t0" "t0" "hello").id
              = (sampleTopItem "t0" "t0" "hello").topLevelComment.id →
            (topLevelToComment (sampleTopItem "t0" "t0" "hello")).commentId
              = (sampleTopItem "t0" "t0" "hello").id)) :=
  ⟨rfl, claim_C4_toplevel_single (sampleTopItem "t0" "t0" "hello") rfl⟩

/-! ### Export lemmas -/

theorem plainRow_keys (c : Comment) :
    (plainRow c).map Prod.fst = commentFields := rfl

theorem sentRow_keys (c : Comment) (sv : Sentiment) :
    (sentRow c sv).map Prod.fst = sentimentFields := rfl

theorem buildRow_none_eq (i : Nat) (c : Comment) :
    buildRow none i c = Except.ok (plainRow c) := rfl

theorem buildRow_someNil_eq (i : Nat) (c : Comment) :
    buildRow (some []) i c = Except.ok (plainRow c) := rfl

theorem sentimentsTruthy_cons (s : List Sentiment) (hs : s ≠ []) :
    sentimentsTruthy (some s) = true := by
  cases s with
  | nil => exact absurd rfl hs
  | cons a l => rfl

theorem buildRow_some_get (s : List Sentiment) (hs : s ≠ []) (i : Nat)
    (c : Comment) (sv : Sentiment) (h : s[i]? = some sv) :
    buildRow (some s) i c = Except.ok (sentRow c sv) := by
  unfold buildRow
  rw [sentimentsTruthy_cons s hs, if_pos rfl]
  simp only [Option.getD_some]
  rw [h]
  rfl

theorem buildRow_some_oob (s : List Sentiment) (hs : s ≠ []) (i : Nat)
    (c : Comment) (h : s[i]? = none) :
    buildRow (some s) i c = Except.error CsvError.indexError := by
  unfold buildRow
  rw [sentimentsTruthy_cons s hs, if_pos rfl]
  simp only [Option.getD_some]
  rw [h]

theorem buildRows_none_eq :
    ∀ (i : Nat) (cs : List Comment),
      buildRows none i cs = Except.ok (cs.map plainRow) := by
  intro i cs
  induction cs generalizing i with
  | nil => rfl
  | cons c rest ih =>
      show (buildRows none (i + 1) rest).bind
          (fun rs => Except.ok (plainRow c :: rs)) = _
      rw [ih (i + 1)]
      rfl

theorem buildRows_someNil_eq :
    ∀ (i : Nat) (cs : List Comment),
      buildRows (some []) i cs = Except.ok (cs.map plainRow) := by
  intro i cs
  induction cs generalizing i with
  | nil => rfl
  | cons c rest ih =>
      show (buildRows (some []) (i + 1) rest).bind
          (fun rs => Except.ok (plainRow c :: rs)) = _
      rw [ih (i + 1)]
      rfl

/-- When enough sentiments are supplied, the row loop succeeds and every
produced row carries the sentiment header shape. -/
theorem buildRows_some_ok (s : List Sentiment) (hs : s ≠ []) :
    ∀ (cs : List Comment) (i : Nat), i + cs.length ≤ s.length →
      ∃ rows, buildRows (some s) i cs = Except.ok rows
        ∧ rows.length = cs.length
        ∧ ∀ r ∈ rows, r.map Prod.fst = sentimentFields := by
  intro cs
  induction cs with
  | nil => exact fun i _ => ⟨[], rfl, rfl, by simp⟩
  | cons c rest ih =>
      intro i h
      have hi : i < s.length := by
        simp only [List.length_cons] at h
        omega
      have hsv : s[i]? = some s[i] := List.getElem?_eq_getElem hi
      obtain ⟨rows, hrows, hlen, hkeys⟩ := ih (i + 1) (by
        simp only [List.length_cons] at h
        omega)
      refine ⟨sentRow c s[i] :: rows, ?_, by simp [hlen], ?_⟩
      · show (buildRow (some s) i c).bind _ = _
        rw [buildRow_some_get s hs i c s[i] hsv]
        show (buildRows (some s) (i + 1) rest).bind _ = _
        rw [hrows]
        rfl
      · intro r hr
        rcases List.mem_cons.1 hr with rfl | hr
        · exact sentRow_keys c s[i]
        · exact hkeys r hr

/-- When a non-empty sentiment list is shorter than the remaining
comments, the row loop raises `IndexError`. -/
theorem buildRows_short (s : List Sentiment) (hs : s ≠ []) :
    ∀ (cs : List Comment) (i : Nat), i ≤ s.length →
      s.length < i + cs.length →
      buildRows (some s) i cs = Except.error CsvError.indexError := by
  intro cs
  induction cs with
  | nil =>
      intro i h1 h2
      simp only [List.length_nil] at h2
      omega
  | cons c rest ih =>
      intro i h1 h2
      by_cases hi : i < s.length
      · have hsv : s[i]? = some s[i] := List.getElem?_eq_getElem hi
        show (buildRow (some s) i c).bind _ = _
        rw [buildRow_some_get s hs i c s[i] hsv]
        show (buildRows (some s) (i + 1) rest).bind _ = _
        rw [ih (i + 1) (by omega) (by
          simp only [List.length_cons] at h2
          omega)]
        rfl
      · have hnone : s[i]? = none := List.getElem?_eq_none (by omega)
        show (buildRow (some s) i c).bind _ = _
        rw [buildRow_some_oob s hs i c hnone]
        rfl

/-- The file content written for a non-empty comment list without
sentiments: the 14 comment columns, one row per comment. -/
theorem to_csv_none_content (c : Comment) (rest : List Comment) :
    to_csv (c :: rest) none
      = Except.ok (csvEncode commentFields ((c :: rest).map plainRow)) := by
  have h : to_csv (c :: rest) none
      = Except.ok (csvEncode ((plainRow c).map Prod.fst)
          ((c :: rest).map plainRow)) := by
    unfold to_csv
    rw [buildRows_none_eq]
    rfl
  rw [h, plainRow_keys]

/-- Claim C6: exporting an empty record sequence raises the precondition
error (and hence no file is written — the error precedes the open). -/
theorem claim_C6_empty_export_fails (sentiments : Option (List Sentiment)) :
    to_csv [] sentiments = Except.error CsvError.valueError := rfl

/-- Claim C8: export is deterministic in its inputs — equal record and
sentiment sequences produce byte-identical file content. -/
theorem claim_C8_export_deterministic (c1 c2 : List Comment)
    (s1 s2 : Option (List Sentiment)) (h1 : c1 = c2) (h2 : s1 = s2) :
    to_csv c1 s1 = to_csv c2 s2 := by
  rw [h1, h2]

/-- Witness for claim C8 at a concrete export. -/
theorem claim_C8_export_deterministic_witness :
    [sampleComment "hi" "c1"] = [sampleComment "hi" "c1"]
    ∧ (none : Option (List Sentiment)) = none
    ∧ to_csv [sampleComment "hi" "c1"] none
        = to_csv [sampleComment "hi" "c1"] none :=
  ⟨rfl, rfl,
    claim_C8_export_deterministic [sampleComment "hi" "c1"]
      [sampleComment "hi" "c1"] none none rfl rfl⟩

/-- Claim C9: a non-empty sentiment sequence strictly shorter than a
non-empty record sequence makes the export fail with `IndexError` during
row construction — before the output file is opened, so nothing is
written. -/
theorem claim_C9_short_sentiments_fail (comments : List Comment)
    (s : List Sentiment) (_h1 : comments ≠ []) (h2 : s ≠ [])
    (h3 : s.length < comments.length) :
    to_csv comments (some s) = Except.error CsvError.indexError := by
  unfold to_csv
  rw [buildRows_short s h2 comments 0 (by omega) (by omega)]
  rfl

/-- Witness for claim C9: two comments, one sentiment. -/
theorem claim_C9_short_sentiments_fail_witness :
    ([sampleComment "a" "c1", sampleComment "b" "c2"] : List Comment) ≠ []
    ∧ ([⟨⟨"0.1"⟩, ⟨"0.2"⟩⟩] : List Sentiment) ≠ []
    ∧ ([⟨⟨"0.1"⟩, ⟨"0.2"⟩⟩] : List Sentiment).length
        < ([sampleComment "a" "c1", sampleComment "b" "c2"] : List Comment).length
    ∧ to_csv [sampleComment "a" "c1", sampleComment "b" "c2"]
        (some [⟨⟨"0.1"⟩, ⟨"0.2"⟩⟩]) = Except.error CsvError.indexError :=
  ⟨by decide, by decide, by decide,
    claim_C9_short_sentiments_fail
      [sampleComment "a" "c1", sampleComment "b" "c2"]
      [⟨⟨"0.1"⟩, ⟨"0.2"⟩⟩] (by decide) (by decide) (by decide)⟩

/-- Claim C10: an empty sentiment list behaves exactly like absent
sentiments — the export succeeds for non-empty records and the header has
no score or magnitude column. -/
theorem claim_C10_empty_sentiments_like_none (comments : List Comment)
    (h : comments ≠ []) :
    to_csv comments (some []) = to_csv comments none
    ∧ to_csv comments (some [])
        = Except.ok (csvEncode commentFields (comments.map plainRow))
    ∧ "score" ∉ commentFields ∧ "magnitude" ∉ commentFields := by
  have heq : to_csv comments (some []) = to_csv comments none := by
    unfold to_csv
    rw [buildRows_someNil_eq, buildRows_none_eq]
  cases comments with
  | nil => exact absurd rfl h
  | cons c rest =>
      exact ⟨heq, heq.trans (to_csv_none_content c rest), by decide, by decide⟩

/-- Witness for claim C10 at a concrete comment list. -/
theorem claim_C10_empty_sentiments_like_none_witness :
    ([sampleComment "hi" "c1"] : List Comment) ≠ []
    ∧ (to_csv [sampleComment "hi" "c1"] (some [])
          = to_csv [sampleComment "hi" "c1"] none
        ∧ to_csv [sampleComment "hi" "c1"] (some [])
            = Except.ok (csvEncode commentFields
                ([sampleComment "hi" "c1"].map plainRow))
        ∧ "score" ∉ commentFields ∧ "magnitude" ∉ commentFields) :=
  ⟨by decide,
    claim_C10_empty_sentiments_like_none [sampleComment "hi" "c1"] (by decide)⟩

/-- Claim C7: a non-empty export writes one header row and one row per
comment; the columns are the 14 `Comment` fields in declaration order,
followed by `score` and `magnitude` exactly when sentiments are supplied;
without sentiments the header has no score or magnitude column. -/
theorem claim_C7_header_and_columns (comments : List Comment)
    (s : List Sentiment) (h : comments ≠ []) :
    (to_csv comments none
        = Except.ok (csvEncode commentFields (comments.map plainRow))
      ∧ (comments.map plainRow).length = comments.length
      ∧ "score" ∉ commentFields ∧ "magnitude" ∉ commentFields)
    ∧ (s ≠ [] → comments.length ≤ s.length →
        ∃ rows, to_csv comments (some s)
            = Except.ok (csvEncode sentimentFields rows)
          ∧ rows.length = comments.length
          ∧ "score" ∈ sentimentFields ∧ "magnitude" ∈ sentimentFields) := by
  constructor
  · cases comments with
    | nil => exact absurd rfl h
    | cons c rest =>
        exact ⟨to_csv_none_content c rest, by simp, by decide, by decide⟩
  · intro hs hlen
    obtain ⟨rows, hrows, hrlen, hkeys⟩ :=
      buildRows_some_ok s hs comments 0 (by omega)
    cases rows with
    | nil =>
        cases comments with
        | nil => exact absurd rfl h
        | cons c rest => simp at hrlen
    | cons r0 rrest =>
        refine ⟨r0 :: rrest, ?_, hrlen, by decide, by decide⟩
        have hmain : to_csv comments (some s)
            = Except.ok (csvEncode (r0.map Prod.fst) (r0 :: rrest)) := by
          unfold to_csv
          rw [hrows]
          rfl
        rw [hmain, hkeys r0 (List.mem_cons_self r0 rrest)]

/-- Witness for claim C7: one comment with and without one sentiment. -/
theorem claim_C7_header_and_columns_witness :
    ([sampleComment "hi" "c1"] : List Comment) ≠ []
    ∧ ((to_csv [sampleComment "hi" "c1"] none
          = Except.ok (csvEncode commentFields
              ([sampleComment "hi" "c1"].map plainRow))
        ∧ ([sampleComment "hi" "c1"].map plainRow).length
            = ([sampleComment "hi" "c1"] : List Comment).length
        ∧ "score" ∉ commentFields ∧ "magnitude" ∉ commentFields)
      ∧ (([⟨⟨"0.9"⟩, ⟨"1.5"⟩⟩] : List Sentiment) ≠ [] →
          ([sampleComment "hi" "c1"] : List Comment).length
            ≤ ([⟨⟨"0.9"⟩, ⟨"1.5"⟩⟩] : List Sentiment).length →
          ∃ rows, to_csv [sampleComment "hi" "c1"] (some [⟨⟨"0.9"⟩, ⟨"1.5"⟩⟩])
              = Except.ok (csvEncode sentimentFields rows)
            ∧ rows.length = ([sampleComment "hi" "c1"] : List Comment).length
            ∧ "score" ∈ sentimentFields ∧ "magnitude" ∈ sentimentFields)) :=
  ⟨by decide,
    claim_C7_header_and_columns [sampleComment "hi" "c1"]
      [⟨⟨"0.9"⟩, ⟨"1.5"⟩⟩] (by decide)⟩

/-! ### Delimiter-safety lemmas (claim C5) -/

theorem replaceTab_no_tab (s : String) :
    strContains (replaceTab s) '\t' = false := by
  suffices hx : '\t' ∉ s.data.map (fun ch => if ch = '\t' then ' ' else ch) by
    simpa [strContains, replaceTab] using hx
  intro hmem
  obtain ⟨ch, _, hch⟩ := List.mem_map.1 hmem
  by_cases h : ch = '\t'
  · rw [if_pos h] at hch
    exact absurd hch (by decide)
  · rw [if_neg h] at hch
    exact h hch

/-- Minimal quoting never introduces a delimiter: a tab-free field stays
tab-free after the csv writer encodes it. -/
theorem pyCsvField_no_tab (s : String) (h : strContains s '\t' = false) :
    strContains (pyCsvField s) '\t' = false := by
  have hmem : '\t' ∉ s.data := by simpa [strContains] using h
  unfold pyCsvField
  split_ifs with hq
  · suffices hx : '\t' ∉ (("\"" ++ doubleQuotes s) ++ "\"").data by
      simpa [strContains] using hx
    rw [String.data_append, String.data_append]
    intro hmem2
    rcases List.mem_append.1 hmem2 with h2 | h2
    · rcases List.mem_append.1 h2 with h3 | h3
      · exact absurd h3 (by decide)
      · obtain ⟨ch, hch, hin⟩ := List.mem_flatMap.1 h3
        by_cases hq2 : ch = '"'
        · rw [if_pos hq2] at hin
          exact absurd hin (by decide)
        · rw [if_neg hq2] at hin
          simp only [List.mem_singleton] at hin
          exact hmem (hin ▸ hch)
    · exact absurd h2 (by decide)
  · exact h

/-- Claim C5 (amended): before writing, every tab in `textDisplay` is
replaced by a single space, so the `textDisplay` cell of the row is
delimiter-free; the writer then applies minimal csv quoting (rather than
no escaping at all), which never reintroduces a delimiter — hence, as long
as the other fields of the record are delimiter-free, the written row
consists of exactly the expected 14 delimiter-free columns. -/
theorem claim_C5_tab_replaced_then_quoted (c : Comment)
    (rest : List Comment) (h : otherFieldsTabFree c) :
    to_csv (c :: rest) none
      = Except.ok (csvEncode commentFields ((c :: rest).map plainRow))
    ∧ dictGet (plainRow c) "textDisplay" = Cell.str (replaceTab c.textDisplay)
    ∧ (rowCells c).length = commentFields.length
    ∧ ∀ cell ∈ (rowCells c).map pyCsvField, strContains cell '\t' = false := by
  obtain ⟨h1, h2, h3, h4, h5, h6, h7, h8, h9, h10, h11, h12⟩ := h
  refine ⟨to_csv_none_content c rest, rfl, rfl, ?_⟩
  have hcells : rowCells c
      = [c.channelId, c.videoId, replaceTab c.textDisplay,
         c.authorDisplayName, c.authorProfileImageUrl, c.authorChannelUrl,
         c.authorChannelId, (if c.canRate then "True" else "False"),
         c.viewerRating, toString c.likeCount, c.publishedAt, c.updatedAt,
         Cell.render (match c.parentId with
           | some p => Cell.str p
           | none => Cell.noneV), c.commentId] := rfl
  rw [hcells]
  intro cell hcell
  simp only [List.map_cons, List.map_nil, List.mem_cons, List.not_mem_nil,
    or_false] at hcell
  rcases hcell with rfl | rfl | rfl | rfl | rfl | rfl | rfl | rfl | rfl |
    rfl | rfl | rfl | rfl | rfl
  · exact pyCsvField_no_tab _ h1
  · exact pyCsvField_no_tab _ h2
  · exact pyCsvField_no_tab _ (replaceTab_no_tab c.textDisplay)
  · exact pyCsvField_no_tab _ h3
  · exact pyCsvField_no_tab _ h4
  · exact pyCsvField_no_tab _ h5
  · exact pyCsvField_no_tab _ h6
  · exact pyCsvField_no_tab _ (by cases c.canRate <;> decide)
  · exact pyCsvField_no_tab _ h7
  · exact pyCsvField_no_tab _ h8
  · exact pyCsvField_no_tab _ h9
  · exact pyCsvField_no_tab _ h10
  · refine pyCsvField_no_tab _ ?_
    cases hp : c.parentId with
    | none =>
        rw [hp] at h11
        simpa [Cell.render] using h11
    | some p =>
        rw [hp] at h11
        simpa [Cell.render] using h11
  · exact pyCsvField_no_tab _ h12

/-- Witness for claim C5 (amended) at a comment whose text contains a tab
and a quote. -/
theorem claim_C5_tab_replaced_then_quoted_witness :
    otherFieldsTabFree c5Ex
    ∧ (to_csv [c5Ex] none
          = Except.ok (csvEncode commentFields ([c5Ex].map plainRow))
        ∧ dictGet (plainRow c5Ex) "textDisplay"
            = Cell.str (replaceTab c5Ex.textDisplay)
        ∧ (rowCells c5Ex).length = commentFields.length
        ∧ ∀ cell ∈ (rowCells c5Ex).map pyCsvField,
            strContains cell '\t' = false) :=
  ⟨by decide, claim_C5_tab_replaced_then_quoted c5Ex [] (by decide)⟩

set_option maxRecDepth 10000 in
/-- Counterexample for claim C5 as stated: the export does not write the
fields with the tab replacement as the only transformation - Python
`csv.DictWriter` additionally quotes fields containing a quote character,
CR/LF or a residual delimiter, so on a record whose text is `a<tab>b"c`
the produced content differs from what the claimed no-escaping policy
would produce. -/
theorem claim_C5_noescape_counterexample :
    to_csv [c5Ex] none
      ≠ Except.ok (noQuoteEncode commentFields [plainRow c5Ex]) := by
  decide

end YoutubeComments
